import Mathlib

/-!
Verification of the luma-backend flashcard service (FastAPI + SQLAlchemy).

The embedding models the relational state as lists of rows and each CRUD /
router operation as a pure function on that state.  Timestamps are modelled
as natural numbers counting minutes since 1970-01-01 00:00 UTC; calendar
dates, weekdays (Python `datetime.weekday()`, Monday = 0) and Gregorian
year-month buckets (Postgres `to_char(ts, 'YYYY-MM')`) are derived from
that count.  SQL `GROUP BY k ORDER BY k` with `SUM` is modelled by
`groupSumSorted`.
-/

namespace Luma

/-- `models.DifficultyEnum`. -/
inductive DifficultyEnum
  | easy
  | medium
  | hard
deriving DecidableEq, Repr

/-- `models.StatusEnum`. -/
inductive StatusEnum
  | learning
  | mastered
deriving DecidableEq, Repr

/-- `models.SessionTypeEnum`. -/
inductive SessionTypeEnum
  | flashcard
  | quiz
deriving DecidableEq, Repr

/-- `models.User` (columns used by the verified operations). -/
structure User where
  id : String
  full_name : String
  email : String
  bio : Option String
  avatar_url : Option String
  streak : Int
  best_streak : Int
  level : Int
  daily_goal : Int
  notifications_enabled : Bool
  sound_effects_enabled : Bool
  dark_mode_enabled : Bool
deriving DecidableEq, Repr

/-- `models.Deck`. -/
structure Deck where
  id : String
  user_id : String
  title : String
  description : Option String
  category : String
deriving DecidableEq, Repr

/-- `models.Word`. -/
structure Word where
  id : String
  deck_id : String
  word : String
  definition : String
  «example» : Option String
  difficulty : DifficultyEnum
deriving DecidableEq, Repr

/-- `models.UserWordProgress`; `last_reviewed_at` is in minutes since epoch. -/
structure UserWordProgress where
  user_id : String
  word_id : String
  status : StatusEnum
  last_reviewed_at : Nat
  correct_streak : Int
deriving DecidableEq, Repr

/-- `models.StudySession`; `completed_at` is in minutes since epoch. -/
structure StudySession where
  id : String
  user_id : String
  deck_id : String
  session_type : SessionTypeEnum
  score_percentage : Option Int
  words_reviewed : Int
  completed_at : Nat
  duration_seconds : Int
deriving DecidableEq, Repr

/-- The relational state: one list of rows per table. -/
structure DB where
  users : List User
  decks : List Deck
  words : List Word
  progress : List UserWordProgress
  sessions : List StudySession
deriving DecidableEq, Repr

/-! ## Time and calendar -/

def minutesPerDay : Nat := 1440

/-- Calendar day index (days since 1970-01-01) of a timestamp. -/
def dateOf (t : Nat) : Nat := t / minutesPerDay

/-- Python `datetime.weekday()`: Monday = 0.  1970-01-01 was a Thursday. -/
def weekdayOf (t : Nat) : Nat := (dateOf t + 3) % 7

/-- Gregorian leap-year rule. -/
def isLeap (y : Nat) : Bool := (y % 4 == 0 && y % 100 != 0) || y % 400 == 0

/-- Length of calendar month `m` (1-based) of year `y`. -/
def daysInMonth (y m : Nat) : Nat :=
  if m = 2 then (if isLeap y then 29 else 28)
  else if m = 4 ∨ m = 6 ∨ m = 9 ∨ m = 11 then 30
  else 31

/-- Length of month number `k` counting from January 1970 (= month 0). -/
def monthLen (k : Nat) : Nat := daysInMonth (1970 + k / 12) (k % 12 + 1)

/-- Day index of the first day of month number `k`. -/
def monthStart : Nat → Nat
  | 0 => 0
  | k + 1 => monthStart k + monthLen k

/-- Walk forward while the next month still begins on or before day `z`. -/
def monthIdxGo (z : Nat) : Nat → Nat → Nat
  | 0, k => k
  | fuel + 1, k => if monthStart (k + 1) ≤ z then monthIdxGo z fuel (k + 1) else k

/-- Month number (since January 1970) containing day `z`. -/
def monthIdx (z : Nat) : Nat := monthIdxGo z (z + 1) 0

/-- Year-month bucket of a timestamp, as used by `to_char(ts, 'YYYY-MM')`.
For the years reachable here the chronological order of the `'YYYY-MM'`
strings coincides with the numeric order of this month number. -/
def monthKey (t : Nat) : Nat := monthIdx (dateOf t)

/-! ## SQL-style grouping

`groupSumSorted xs` produces, for each key present in the `(key, value)`
list `xs`, one pair `(key, sum of its values)`, in ascending key order:
the semantics of `GROUP BY key ... SUM(value) ... ORDER BY key`. -/

def bucketSum (xs : List (Nat × Int)) (k : Nat) : Int :=
  ((xs.filter (fun p => p.1 == k)).map (fun p => p.2)).sum

def hasKey (xs : List (Nat × Int)) (k : Nat) : Bool :=
  xs.any (fun p => p.1 == k)

def keyLo : List (Nat × Int) → Nat
  | [] => 0
  | p :: rest => rest.foldl (fun a q => min a q.1) p.1

def keyHi : List (Nat × Int) → Nat
  | [] => 0
  | p :: rest => rest.foldl (fun a q => max a q.1) p.1

def groupKeys (xs : List (Nat × Int)) : List Nat :=
  ((List.range (keyHi xs + 1 - keyLo xs)).map (fun i => keyLo xs + i)).filter
    (fun k => hasKey xs k)

def groupSumSorted (xs : List (Nat × Int)) : List (Nat × Int) :=
  (groupKeys xs).map (fun k => (k, bucketSum xs k))

/-! ## Record access layer (`app/crud.py`) -/

/-- In-place mutation of the first row matched by a SQLAlchemy
`query(...).filter(...).first()` lookup. -/
def replaceFirst (p : α → Bool) (f : α → α) : List α → List α
  | [] => []
  | x :: xs => if p x then f x :: xs else x :: replaceFirst p f xs

/-- `crud.get_user`. -/
def get_user (db : DB) (user_id : String) : Option User :=
  db.users.find? (fun us => us.id == user_id)

/-- `crud.get_deck`. -/
def get_deck (db : DB) (deck_id : String) : Option Deck :=
  db.decks.find? (fun d => d.id == deck_id)

/-- `crud.get_word`. -/
def get_word (db : DB) (word_id : String) : Option Word :=
  db.words.find? (fun w => w.id == word_id)

/-- `crud.count_total_words_in_deck`. -/
def count_total_words_in_deck (db : DB) (deck_id : String) : Nat :=
  (db.words.filter (fun w => w.deck_id == deck_id)).length

/-- The join `query(UserWordProgress).join(Word)` (on `word_id = Word.id`). -/
def progressJoinWords (db : DB) : List (UserWordProgress × Word) :=
  db.progress.flatMap (fun p =>
    (db.words.filter (fun w => w.id == p.word_id)).map (fun w => (p, w)))

/-- `crud.count_words_by_status`. -/
def count_words_by_status (db : DB) (deck_id : String) (status : StatusEnum)
    (user_id : String) : Nat :=
  ((progressJoinWords db).filter (fun pw =>
    pw.2.deck_id == deck_id && pw.1.user_id == user_id &&
      decide (pw.1.status = status))).length

/-- `crud.count_words_by_difficulty`. -/
def count_words_by_difficulty (db : DB) (deck_id : String)
    (difficulty : DifficultyEnum) : Nat :=
  (db.words.filter (fun w =>
    w.deck_id == deck_id && decide (w.difficulty = difficulty))).length

/-! ### Partial-update payloads (`app/schemas.py`)

Pydantic update schemas with `model_dump(exclude_unset=True)`: the outer
`Option` is `none` exactly when the field was absent from the payload.
Fields that are nullable in the row keep an inner `Option`. -/

/-- `schemas.DeckUpdate`. -/
structure DeckUpdate where
  title : Option String
  description : Option (Option String)
  category : Option String
deriving DecidableEq, Repr

/-- `schemas.WordUpdate`. -/
structure WordUpdate where
  word : Option String
  definition : Option String
  «example» : Option (Option String)
  difficulty : Option DifficultyEnum
deriving DecidableEq, Repr

/-- `schemas.UserProfileUpdate`. -/
structure UserProfileUpdate where
  full_name : Option String
  bio : Option (Option String)
  avatar_url : Option (Option String)
deriving DecidableEq, Repr

/-- `schemas.UserSettingsUpdate`. -/
structure UserSettingsUpdate where
  daily_goal : Option Int
  notifications_enabled : Option Bool
  sound_effects_enabled : Option Bool
  dark_mode_enabled : Option Bool
deriving DecidableEq, Repr

/-- The `for key, value in update_data.items(): setattr(...)` loop of
`crud.update_deck`: each field present in the payload is assigned, each
absent field keeps its row value. -/
def applyDeckUpdate (du : DeckUpdate) (d : Deck) : Deck :=
  { d with
    title := du.title.getD d.title
    description := du.description.getD d.description
    category := du.category.getD d.category }

/-- The `setattr` loop of `crud.update_word`. -/
def applyWordUpdate (wu : WordUpdate) (w : Word) : Word :=
  { w with
    word := wu.word.getD w.word
    definition := wu.definition.getD w.definition
    «example» := wu.«example».getD w.«example»
    difficulty := wu.difficulty.getD w.difficulty }

/-- The `setattr` loop of `crud.update_user_profile`. -/
def applyProfileUpdate (pu : UserProfileUpdate) (us : User) : User :=
  { us with
    full_name := pu.full_name.getD us.full_name
    bio := pu.bio.getD us.bio
    avatar_url := pu.avatar_url.getD us.avatar_url }

/-- The `setattr` loop of `crud.update_user_settings`. -/
def applySettingsUpdate (su : UserSettingsUpdate) (us : User) : User :=
  { us with
    daily_goal := su.daily_goal.getD us.daily_goal
    notifications_enabled := su.notifications_enabled.getD us.notifications_enabled
    sound_effects_enabled := su.sound_effects_enabled.getD us.sound_effects_enabled
    dark_mode_enabled := su.dark_mode_enabled.getD us.dark_mode_enabled }

/-- `crud.update_deck`: fetch by id, apply the payload in place, commit. -/
def update_deck (db : DB) (deck_id : String) (du : DeckUpdate) :
    Option (DB × Deck) :=
  match get_deck db deck_id with
  | none => none
  | some d =>
    some ({ db with
            decks := replaceFirst (fun x => x.id == deck_id)
              (fun _ => applyDeckUpdate du d) db.decks },
          applyDeckUpdate du d)

/-- `crud.update_word`. -/
def update_word (db : DB) (word_id : String) (wu : WordUpdate) :
    Option (DB × Word) :=
  match get_word db word_id with
  | none => none
  | some w =>
    some ({ db with
            words := replaceFirst (fun x => x.id == word_id)
              (fun _ => applyWordUpdate wu w) db.words },
          applyWordUpdate wu w)

/-- `crud.update_user_profile`. -/
def update_user_profile (db : DB) (user_id : String) (pu : UserProfileUpdate) :
    Option (DB × User) :=
  match get_user db user_id with
  | none => none
  | some us =>
    some ({ db with
            users := replaceFirst (fun x => x.id == user_id)
              (fun _ => applyProfileUpdate pu us) db.users },
          applyProfileUpdate pu us)

/-- `crud.update_user_settings`. -/
def update_user_settings (db : DB) (user_id : String) (su : UserSettingsUpdate) :
    Option (DB × User) :=
  match get_user db user_id with
  | none => none
  | some us =>
    some ({ db with
            users := replaceFirst (fun x => x.id == user_id)
              (fun _ => applySettingsUpdate su us) db.users },
          applySettingsUpdate su us)

/-- Lookup predicate of `crud.update_word_progress`. -/
def progressKey (word_id user_id : String) (p : UserWordProgress) : Bool :=
  p.word_id == word_id && p.user_id == user_id

/-- `crud.update_word_progress`: resolve-or-create the (user, word) row.
`now` is the insertion time supplied by the column's `server_default`
(`func.now()`), used only when a new row is created. -/
def update_word_progress (db : DB) (word_id user_id : String)
    (status : StatusEnum) (now : Nat) : DB × UserWordProgress :=
  match db.progress.find? (progressKey word_id user_id) with
  | some p =>
    let p' : UserWordProgress :=
      { p with
        status := status
        correct_streak :=
          if status = StatusEnum.mastered then p.correct_streak + 1 else 0 }
    ({ db with
       progress := replaceFirst (progressKey word_id user_id) (fun _ => p') db.progress },
     p')
  | none =>
    let p' : UserWordProgress :=
      { user_id := user_id
        word_id := word_id
        status := status
        last_reviewed_at := now
        correct_streak := if status = StatusEnum.mastered then 1 else 0 }
    ({ db with progress := db.progress ++ [p'] }, p')

/-- `schemas.StudySessionCreate`. -/
structure StudySessionCreate where
  deck_id : String
  session_type : SessionTypeEnum
  score_percentage : Option Int
  words_reviewed : Int
  duration_seconds : Int
deriving DecidableEq, Repr

/-- `crud.create_study_session`; `sid` and `now` are the id and
`completed_at` supplied by the column defaults at insertion time. -/
def create_study_session (db : DB) (payload : StudySessionCreate)
    (user_id sid : String) (now : Nat) : DB × StudySession :=
  let s : StudySession :=
    { id := sid
      user_id := user_id
      deck_id := payload.deck_id
      session_type := payload.session_type
      score_percentage := payload.score_percentage
      words_reviewed := payload.words_reviewed
      completed_at := now
      duration_seconds := payload.duration_seconds }
  ({ db with sessions := db.sessions ++ [s] }, s)

/-- `crud.create_word`; `wid` is the id generated by the column default. -/
structure WordCreate where
  word : String
  definition : String
  «example» : Option String
  difficulty : DifficultyEnum
deriving DecidableEq, Repr

def create_word (db : DB) (payload : WordCreate) (deck_id wid : String) :
    DB × Word :=
  let w : Word :=
    { id := wid
      deck_id := deck_id
      word := payload.word
      definition := payload.definition
      «example» := payload.«example»
      difficulty := payload.difficulty }
  ({ db with words := db.words ++ [w] }, w)

/-- `crud.delete_deck`; the ORM cascade (`all, delete-orphan`) removes the
deck's words, their progress rows, and the deck's study sessions. -/
def delete_deck (db : DB) (deck_id : String) : Option (DB × Deck) :=
  match get_deck db deck_id with
  | none => none
  | some d =>
    some ({ db with
            decks := db.decks.filter (fun x => !(x.id == deck_id))
            words := db.words.filter (fun w => !(w.deck_id == deck_id))
            progress := db.progress.filter (fun p =>
              !(db.words.any (fun w => w.id == p.word_id && w.deck_id == deck_id)))
            sessions := db.sessions.filter (fun s => !(s.deck_id == deck_id)) },
          d)

/-- `crud.delete_word`; cascade removes the word's progress rows. -/
def delete_word (db : DB) (word_id : String) : Option (DB × Word) :=
  match get_word db word_id with
  | none => none
  | some w =>
    some ({ db with
            words := db.words.filter (fun x => !(x.id == word_id))
            progress := db.progress.filter (fun p => !(p.word_id == word_id)) },
          w)

/-! ## Statistics aggregator (`crud.get_user_stats`) -/

/-- `schemas.UserDashboardStats`.  `difficulty_breakdown` is flattened into
its three fields; `monthly_progress` entries carry the year-month number
behind the `'%b'` label, `weekly_activity` entries the day index behind the
`'%a'` label. -/
structure UserDashboardStats where
  study_time_seconds : Int
  accuracy_rate : Rat
  total_words_mastered : Nat
  days_active : Nat
  weekly_words_goal : Int
  weekly_words_progress : Int
  monthly_progress : List (Nat × Int)
  difficulty_easy : Nat
  difficulty_medium : Nat
  difficulty_hard : Nat
  weekly_activity : List (Nat × Int)
deriving DecidableEq, Repr

/-- `crud.get_user_stats`; `now` is `datetime.now(timezone.utc)` in minutes
since epoch.  Empty SQL aggregates (`SUM`/`AVG` over no rows) yield NULL,
turned into `0` by the `or 0` / `or 0.0` coalescing in the code; list sums
over empty lists are already `0`, and the AVG case keeps its explicit
emptiness test. -/
def get_user_stats (db : DB) (u : User) (now : Nat) : UserDashboardStats :=
  let total_duration : Int :=
    ((db.sessions.filter (fun s => s.user_id == u.id)).map
      (fun s => s.duration_seconds)).sum
  let quiz_scores : List Int :=
    (db.sessions.filter (fun s =>
      s.user_id == u.id && decide (s.session_type = SessionTypeEnum.quiz))).filterMap
      (fun s => s.score_percentage)
  let accuracy : Rat :=
    if quiz_scores.isEmpty then 0
    else (quiz_scores.sum : Rat) / (quiz_scores.length : Rat)
  let total_mastered : Nat :=
    (db.progress.filter (fun p =>
      p.user_id == u.id && decide (p.status = StatusEnum.mastered))).length
  let days_active : Nat :=
    ((db.sessions.filter (fun s => s.user_id == u.id)).map
      (fun s => dateOf s.completed_at)).dedup.length
  let start_of_week : Nat := now - weekdayOf now * minutesPerDay
  let weekly_progress : Int :=
    ((db.sessions.filter (fun s =>
      s.user_id == u.id && decide (start_of_week ≤ s.completed_at))).map
      (fun s => s.words_reviewed)).sum
  let six_months_ago : Nat := now - 180 * minutesPerDay
  let monthly_progress : List (Nat × Int) :=
    groupSumSorted ((db.sessions.filter (fun s =>
      s.user_id == u.id && decide (six_months_ago ≤ s.completed_at))).map
      (fun s => (monthKey s.completed_at, s.words_reviewed)))
  let joined : List (Word × UserWordProgress) :=
    db.words.flatMap (fun w =>
      (db.progress.filter (fun p => p.word_id == w.id && p.user_id == u.id)).map
        (fun p => (w, p)))
  let seven_days_ago : Nat := now - 6 * minutesPerDay
  let weekly_data : List (Nat × Int) :=
    groupSumSorted ((db.sessions.filter (fun s =>
      s.user_id == u.id && decide (seven_days_ago ≤ s.completed_at))).map
      (fun s => (dateOf s.completed_at, s.words_reviewed)))
  let weekly_activity : List (Nat × Int) :=
    (List.range 7).map (fun i =>
      let d := dateOf seven_days_ago + i
      (d, (weekly_data.lookup d).getD 0))
  { study_time_seconds := total_duration
    accuracy_rate := accuracy
    total_words_mastered := total_mastered
    days_active := days_active
    weekly_words_goal := u.daily_goal * 7
    weekly_words_progress := weekly_progress
    monthly_progress := monthly_progress
    difficulty_easy :=
      (joined.filter (fun wp => decide (wp.1.difficulty = DifficultyEnum.easy))).length
    difficulty_medium :=
      (joined.filter (fun wp => decide (wp.1.difficulty = DifficultyEnum.medium))).length
    difficulty_hard :=
      (joined.filter (fun wp => decide (wp.1.difficulty = DifficultyEnum.hard))).length
    weekly_activity := weekly_activity }

/-! ## Router layer (`app/routers/*.py`) -/

/-- HTTP error kinds raised by the routers: 404 and 403. -/
inductive ApiError
  | notFound
  | forbidden
deriving DecidableEq, Repr

/-- `schemas.DeckDetail` (response of `GET /decks/{deck_id}`); float
arithmetic on `mastery_percentage` is modelled exactly over `Rat`. -/
structure DeckDetail where
  id : String
  user_id : String
  title : String
  description : Option String
  category : String
  mastery_percentage : Rat
  words_mastered : Nat
  words_learning : Int
  easy_count : Nat
  medium_count : Nat
  hard_count : Nat
deriving DecidableEq, Repr

/-- `decks.read_deck` (`GET /decks/{deck_id}`). -/
def read_deck (db : DB) (deck_id : String) (u : User) :
    Except ApiError DeckDetail :=
  match get_deck db deck_id with
  | none => .error .notFound
  | some d =>
    if d.user_id ≠ u.id then .error .forbidden
    else
      let words_mastered :=
        count_words_by_status db deck_id StatusEnum.mastered u.id
      let total_words := count_total_words_in_deck db deck_id
      let mastery_percentage : Rat :=
        if total_words > 0 then
          ((words_mastered : Rat) / (total_words : Rat)) * 100
        else 0
      .ok
        { id := d.id
          user_id := d.user_id
          title := d.title
          description := d.description
          category := d.category
          mastery_percentage := mastery_percentage
          words_mastered := words_mastered
          words_learning := (total_words : Int) - (words_mastered : Int)
          easy_count := count_words_by_difficulty db deck_id DifficultyEnum.easy
          medium_count := count_words_by_difficulty db deck_id DifficultyEnum.medium
          hard_count := count_words_by_difficulty db deck_id DifficultyEnum.hard }

/-- `decks.update_deck` (`PUT /decks/{deck_id}`). -/
def update_deck_route (db : DB) (u : User) (deck_id : String) (du : DeckUpdate) :
    Except ApiError (DB × Deck) :=
  match get_deck db deck_id with
  | none => .error .notFound
  | some d =>
    if d.user_id ≠ u.id then .error .forbidden
    else
      match update_deck db deck_id du with
      | none => .error .notFound
      | some r => .ok r

/-- `decks.delete_deck` (`DELETE /decks/{deck_id}`). -/
def delete_deck_route (db : DB) (u : User) (deck_id : String) :
    Except ApiError (DB × Deck) :=
  match get_deck db deck_id with
  | none => .error .notFound
  | some d =>
    if d.user_id ≠ u.id then .error .forbidden
    else
      match delete_deck db deck_id with
      | none => .error .notFound
      | some r => .ok r

/-- `words.create_word_for_deck_endpoint` (`POST /decks/{deck_id}/words`). -/
def create_word_route (db : DB) (u : User) (deck_id : String)
    (payload : WordCreate) (wid : String) : Except ApiError (DB × Word) :=
  match get_deck db deck_id with
  | none => .error .notFound
  | some d =>
    if d.user_id ≠ u.id then .error .forbidden
    else .ok (create_word db payload deck_id wid)

/-- `words.update_word_endpoint` (`PUT /decks/{deck_id}/words/{word_id}`). -/
def update_word_route (db : DB) (u : User) (deck_id word_id : String)
    (wu : WordUpdate) : Except ApiError (DB × Word) :=
  match get_deck db deck_id with
  | none => .error .notFound
  | some d =>
    if d.user_id ≠ u.id then .error .forbidden
    else
      match update_word db word_id wu with
      | none => .error .notFound
      | some r => .ok r

/-- `words.delete_word_endpoint` (`DELETE /decks/{deck_id}/words/{word_id}`). -/
def delete_word_route (db : DB) (u : User) (deck_id word_id : String) :
    Except ApiError (DB × Word) :=
  match get_deck db deck_id with
  | none => .error .notFound
  | some d =>
    if d.user_id ≠ u.id then .error .forbidden
    else
      match delete_word db word_id with
      | none => .error .notFound
      | some r => .ok r

/-- `study.create_study_session` (`POST /study/sessions`).  The code checks
`if not db_deck or db_deck.user_id != current_user.id` and raises 403 in
both cases, so a payload `deck_id` that does not resolve yields Forbidden,
not NotFound. -/
def create_study_session_route (db : DB) (u : User)
    (payload : StudySessionCreate) (sid : String) (now : Nat) :
    Except ApiError (DB × StudySession) :=
  match get_deck db payload.deck_id with
  | none => .error .forbidden
  | some d =>
    if d.user_id ≠ u.id then .error .forbidden
    else .ok (create_study_session db payload u.id sid now)

/-- `study.update_word_progress` (`PUT /study/progress/{word_id}`).  The
middle branch (word exists but its deck row is absent) is unreachable:
`Word.deck_id` is a non-nullable foreign key. -/
def update_word_progress_route (db : DB) (u : User) (word_id : String)
    (status : StatusEnum) (now : Nat) :
    Except ApiError (DB × UserWordProgress) :=
  match get_word db word_id with
  | none => .error .notFound
  | some w =>
    match get_deck db w.deck_id with
    | none => .error .forbidden
    | some d =>
      if d.user_id ≠ u.id then .error .forbidden
      else .ok (update_word_progress db word_id u.id status now)

/-! ## Spec-side vocabulary

Direct formulations of quantities named by the specification, used on the
right-hand side of the refinement theorems below. -/

/-- Sessions of `u` completed at or after `since`. -/
def sessionsSince (db : DB) (u : User) (since : Nat) : List StudySession :=
  db.sessions.filter (fun s =>
    s.user_id == u.id && decide (since ≤ s.completed_at))

/-- The quiz sessions of `u`. -/
def quizSessions (db : DB) (u : User) : List StudySession :=
  db.sessions.filter (fun s =>
    s.user_id == u.id && decide (s.session_type = SessionTypeEnum.quiz))

/-- Sum of the non-null quiz scores of `u`. -/
def quizScoreSum (db : DB) (u : User) : Int :=
  ((quizSessions db u).filterMap (fun s => s.score_percentage)).sum

/-- Modelled from the claim wording (not from the code, which does not
truncate): start of the current week truncated to midnight. -/
def start_of_week_claimed (now : Nat) : Nat :=
  (dateOf now - weekdayOf now) * minutesPerDay

/-- The weekly words sum the claim describes: sessions since Monday
midnight. -/
def weekly_words_progress_claimed (db : DB) (u : User) (now : Nat) : Int :=
  ((sessionsSince db u (start_of_week_claimed now)).map
    (fun s => s.words_reviewed)).sum

/-! ## Example data for witnesses and counterexamples -/

def uModel : User :=
  { id := "u1", full_name := "U", email := "u@x.io", bio := none,
    avatar_url := none, streak := 0, best_streak := 0, level := 1,
    daily_goal := 10, notifications_enabled := true,
    sound_effects_enabled := true, dark_mode_enabled := false }

def deckD1 : Deck :=
  { id := "d1", user_id := "u1", title := "Basics",
    description := some "starter deck", category := "general" }

def mkWord (wid : String) (diff : DifficultyEnum) : Word :=
  { id := wid, deck_id := "d1", word := "w", definition := "def",
    «example» := none, difficulty := diff }

def mkSession (sid : String) (t : Nat) (wr : Int) (ty : SessionTypeEnum)
    (sc : Option Int) : StudySession :=
  { id := sid, user_id := "u1", deck_id := "d1", session_type := ty,
    score_percentage := sc, words_reviewed := wr, completed_at := t,
    duration_seconds := 60 }

def rowC1 : UserWordProgress :=
  { user_id := "u1", word_id := "w1", status := StatusEnum.mastered,
    last_reviewed_at := 100, correct_streak := 2 }

def dbC1 : DB :=
  { users := [uModel], decks := [], words := [], progress := [rowC1],
    sessions := [] }

def dbC2 : DB :=
  { users := [uModel], decks := [deckD1],
    words := [mkWord "w1" DifficultyEnum.easy, mkWord "w2" DifficultyEnum.medium,
              mkWord "w3" DifficultyEnum.hard, mkWord "w4" DifficultyEnum.easy],
    progress := [{ user_id := "u1", word_id := "w1",
                   status := StatusEnum.mastered, last_reviewed_at := 0,
                   correct_streak := 1 }],
    sessions := [] }

/-- Monday 1970-01-05: one session at 00:30, stats queried at 12:00. -/
def dbC3 : DB :=
  { users := [uModel], decks := [deckD1], words := [], progress := [],
    sessions := [mkSession "s1" (4 * 1440 + 30) 25 SessionTypeEnum.flashcard none] }

/-- Stats queried 1970-07-05 12:00 (minute 267120): seven sessions, one in
each calendar month from January to July, all within the trailing 180
days. -/
def dbC4 : DB :=
  { users := [uModel], decks := [deckD1], words := [], progress := [],
    sessions :=
      [mkSession "s1" 9360 5 SessionTypeEnum.flashcard none,
       mkSession "s2" 51120 5 SessionTypeEnum.flashcard none,
       mkSession "s3" 91440 5 SessionTypeEnum.flashcard none,
       mkSession "s4" 130320 5 SessionTypeEnum.flashcard none,
       mkSession "s5" 173520 5 SessionTypeEnum.flashcard none,
       mkSession "s6" 218160 5 SessionTypeEnum.flashcard none,
       mkSession "s7" 261360 5 SessionTypeEnum.flashcard none] }

/-- Flashcard sessions only: no quiz session at all. -/
def dbC6a : DB :=
  { users := [uModel], decks := [deckD1], words := [], progress := [],
    sessions := [mkSession "s1" 1000 4 SessionTypeEnum.flashcard none] }

/-- Two quiz sessions scoring 80 and 90, one flashcard session. -/
def dbC6b : DB :=
  { users := [uModel], decks := [deckD1], words := [], progress := [],
    sessions :=
      [mkSession "q1" 1000 4 SessionTypeEnum.quiz (some 80),
       mkSession "q2" 2000 4 SessionTypeEnum.quiz (some 90),
       mkSession "f1" 3000 4 SessionTypeEnum.flashcard none] }

def dbC7 : DB :=
  { users := [uModel], decks := [deckD1],
    words := [mkWord "w1" DifficultyEnum.easy], progress := [], sessions := [] }

def plC8 : StudySessionCreate :=
  { deck_id := "nope", session_type := SessionTypeEnum.flashcard,
    score_percentage := none, words_reviewed := 1, duration_seconds := 60 }

def dbC8 : DB :=
  { users := [uModel], decks := [deckD1],
    words := [mkWord "w1" DifficultyEnum.easy], progress := [], sessions := [] }

def rowC9 : UserWordProgress :=
  { user_id := "u1", word_id := "w9", status := StatusEnum.learning,
    last_reviewed_at := 77, correct_streak := 0 }

def dbC9 : DB :=
  { users := [uModel], decks := [], words := [], progress := [rowC9],
    sessions := [] }

def dbC10 : DB :=
  { users := [uModel], decks := [deckD1],
    words := [mkWord "x1" DifficultyEnum.easy, mkWord "x2" DifficultyEnum.hard],
    progress :=
      [{ user_id := "u1", word_id := "x1", status := StatusEnum.learning,
         last_reviewed_at := 0, correct_streak := 0 },
       { user_id := "u1", word_id := "x2", status := StatusEnum.mastered,
         last_reviewed_at := 0, correct_streak := 1 },
       { user_id := "u2", word_id := "x1", status := StatusEnum.learning,
         last_reviewed_at := 0, correct_streak := 0 }],
    sessions := [] }

/-! ## Lemmas about `replaceFirst` -/

theorem find?_replaceFirst (p : α → Bool) (f : α → α) :
    ∀ (l : List α) (x : α), l.find? p = some x → p (f x) = true →
      (replaceFirst p f l).find? p = some (f x)
  | [], x, hx, _ => by simp at hx
  | a :: l, x, hx, hf => by
    by_cases h : p a = true
    · rw [List.find?_cons_of_pos _ h] at hx
      obtain rfl : a = x := by injection hx
      simp [replaceFirst, h, List.find?_cons_of_pos _ hf]
    · rw [List.find?_cons_of_neg _ (by simpa using h)] at hx
      have ih := find?_replaceFirst p f l x hx hf
      simp [replaceFirst, h, List.find?_cons_of_neg _ (by simpa using h), ih]

theorem map_replaceFirst (p : α → Bool) (f : α → α) (g : α → β)
    (hg : ∀ x, g (f x) = g x) :
    ∀ l : List α, (replaceFirst p f l).map g = l.map g
  | [] => rfl
  | a :: l => by
    by_cases h : p a = true <;>
      simp [replaceFirst, h, hg, map_replaceFirst p f g hg l]

/-! ## Lemmas about `groupSumSorted` -/

theorem foldl_min_le_init :
    ∀ (l : List (Nat × Int)) (a : Nat),
      l.foldl (fun b r => min b r.1) a ≤ a
  | [], _ => le_refl _
  | r :: l, a =>
    le_trans (foldl_min_le_init l (min a r.1)) (min_le_left _ _)

theorem foldl_min_le_arg :
    ∀ (l : List (Nat × Int)) (a : Nat) {q : Nat × Int}, q ∈ l →
      l.foldl (fun b r => min b r.1) a ≤ q.1
  | r :: l, a, q, hq => by
    rcases List.mem_cons.mp hq with rfl | hq
    · exact le_trans (foldl_min_le_init l (min a q.1)) (min_le_right _ _)
    · exact foldl_min_le_arg l (min a r.1) hq

theorem init_le_foldl_max :
    ∀ (l : List (Nat × Int)) (a : Nat),
      a ≤ l.foldl (fun b r => max b r.1) a
  | [], _ => le_refl _
  | r :: l, a =>
    le_trans (le_max_left a r.1) (init_le_foldl_max l (max a r.1))

theorem arg_le_foldl_max :
    ∀ (l : List (Nat × Int)) (a : Nat) {q : Nat × Int}, q ∈ l →
      q.1 ≤ l.foldl (fun b r => max b r.1) a
  | r :: l, a, q, hq => by
    rcases List.mem_cons.mp hq with rfl | hq
    · exact le_trans (le_max_right a q.1) (init_le_foldl_max l (max a q.1))
    · exact arg_le_foldl_max l (max a r.1) hq

theorem keyLo_le {xs : List (Nat × Int)} {q : Nat × Int} (hq : q ∈ xs) :
    keyLo xs ≤ q.1 := by
  cases xs with
  | nil => cases hq
  | cons p rest =>
    rcases List.mem_cons.mp hq with rfl | hq
    · exact foldl_min_le_init rest q.1
    · exact foldl_min_le_arg rest p.1 hq

theorem le_keyHi {xs : List (Nat × Int)} {q : Nat × Int} (hq : q ∈ xs) :
    q.1 ≤ keyHi xs := by
  cases xs with
  | nil => cases hq
  | cons p rest =>
    rcases List.mem_cons.mp hq with rfl | hq
    · exact init_le_foldl_max rest q.1
    · exact arg_le_foldl_max rest p.1 hq

theorem foldl_min_lb :
    ∀ (l : List (Nat × Int)) (a c : Nat), c ≤ a → (∀ q ∈ l, c ≤ q.1) →
      c ≤ l.foldl (fun b r => min b r.1) a
  | [], _, _, ha, _ => ha
  | r :: l, a, c, ha, h => by
    refine foldl_min_lb l (min a r.1) c (le_min ha (h r (by simp))) ?_
    exact fun q hq => h q (List.mem_cons_of_mem _ hq)

theorem foldl_max_ub :
    ∀ (l : List (Nat × Int)) (a c : Nat), a ≤ c → (∀ q ∈ l, q.1 ≤ c) →
      l.foldl (fun b r => max b r.1) a ≤ c
  | [], _, _, ha, _ => ha
  | r :: l, a, c, ha, h => by
    refine foldl_max_ub l (max a r.1) c (max_le ha (h r (by simp))) ?_
    exact fun q hq => h q (List.mem_cons_of_mem _ hq)

theorem le_keyLo {xs : List (Nat × Int)} (hne : xs ≠ []) {c : Nat}
    (h : ∀ q ∈ xs, c ≤ q.1) : c ≤ keyLo xs := by
  cases xs with
  | nil => exact absurd rfl hne
  | cons p rest =>
    exact foldl_min_lb rest p.1 c (h p (by simp))
      (fun q hq => h q (List.mem_cons_of_mem _ hq))

theorem keyHi_le {xs : List (Nat × Int)} (hne : xs ≠ []) {c : Nat}
    (h : ∀ q ∈ xs, q.1 ≤ c) : keyHi xs ≤ c := by
  cases xs with
  | nil => exact absurd rfl hne
  | cons p rest =>
    exact foldl_max_ub rest p.1 c (h p (by simp))
      (fun q hq => h q (List.mem_cons_of_mem _ hq))

theorem mem_groupKeys {xs : List (Nat × Int)} {k : Nat} :
    k ∈ groupKeys xs ↔ hasKey xs k = true := by
  unfold groupKeys
  constructor
  · intro h
    exact (List.mem_filter.mp h).2
  · intro h
    refine List.mem_filter.mpr ⟨?_, h⟩
    obtain ⟨q, hq, hqk⟩ := List.any_eq_true.mp h
    have hk : q.1 = k := by simpa using hqk
    have h1 : keyLo xs ≤ k := hk ▸ keyLo_le hq
    have h2 : k ≤ keyHi xs := hk ▸ le_keyHi hq
    refine List.mem_map.mpr ⟨k - keyLo xs, List.mem_range.mpr (by omega), by omega⟩

theorem groupKeys_sorted (xs : List (Nat × Int)) :
    (groupKeys xs).Pairwise (· < ·) := by
  unfold groupKeys
  refine List.Pairwise.sublist (List.filter_sublist _) ?_
  refine List.pairwise_map.mpr ?_
  exact (List.pairwise_lt_range _).imp (by omega)

theorem lookup_map_key (f : Nat → Int) (k : Nat) :
    ∀ ks : List Nat,
      ((ks.map (fun x => (x, f x))).lookup k) =
        if k ∈ ks then some (f k) else none
  | [] => by simp
  | x :: ks => by
    by_cases h : k = x
    · subst h
      simp [List.lookup]
    · have hbeq : (k == x) = false := by simpa using h
      simp [List.lookup, hbeq, lookup_map_key f k ks, h]

theorem bucketSum_of_not_hasKey {xs : List (Nat × Int)} {k : Nat}
    (h : hasKey xs k = false) : bucketSum xs k = 0 := by
  unfold bucketSum
  have : xs.filter (fun p => p.1 == k) = [] := by
    refine List.filter_eq_nil_iff.mpr ?_
    intro q hq
    intro hc
    have : hasKey xs k = true := List.any_eq_true.mpr ⟨q, hq, hc⟩
    rw [this] at h
    cases h
  rw [this]
  rfl

theorem lookup_groupSumSorted (xs : List (Nat × Int)) (k : Nat) :
    (groupSumSorted xs).lookup k =
      if hasKey xs k = true then some (bucketSum xs k) else none := by
  unfold groupSumSorted
  rw [lookup_map_key]
  by_cases h : hasKey xs k = true
  · simp [mem_groupKeys.mpr h, h]
  · have hn : k ∉ groupKeys xs := fun hc => h (mem_groupKeys.mp hc)
    simp [hn, h]

theorem getD_lookup_groupSumSorted (xs : List (Nat × Int)) (k : Nat) :
    ((groupSumSorted xs).lookup k).getD 0 = bucketSum xs k := by
  rw [lookup_groupSumSorted]
  by_cases h : hasKey xs k = true
  · simp [h]
  · have hf : hasKey xs k = false := by simpa using h
    simp [hf, bucketSum_of_not_hasKey hf]

theorem mem_groupSumSorted {xs : List (Nat × Int)} {q : Nat × Int} :
    q ∈ groupSumSorted xs ↔ hasKey xs q.1 = true ∧ q.2 = bucketSum xs q.1 := by
  unfold groupSumSorted
  constructor
  · intro h
    obtain ⟨k, hk, rfl⟩ := List.mem_map.mp h
    exact ⟨mem_groupKeys.mp hk, rfl⟩
  · rintro ⟨h1, h2⟩
    refine List.mem_map.mpr ⟨q.1, mem_groupKeys.mpr h1, ?_⟩
    exact Prod.ext rfl h2.symm

theorem groupSumSorted_sorted (xs : List (Nat × Int)) :
    (groupSumSorted xs).Pairwise (fun a b => a.1 < b.1) := by
  unfold groupSumSorted
  exact List.pairwise_map.mpr (groupKeys_sorted xs)

theorem groupSumSorted_length_le (xs : List (Nat × Int)) :
    (groupSumSorted xs).length ≤ keyHi xs + 1 - keyLo xs := by
  unfold groupSumSorted groupKeys
  rw [List.length_map]
  refine le_trans (List.length_filter_le _ _) ?_
  simp

theorem groupSumSorted_nil : groupSumSorted [] = [] := rfl

/-- A grouped bucket over mapped `(key, words_reviewed)` pairs sums the
`words_reviewed` of exactly the sessions carrying that key. -/
theorem bucketSum_map_sessions (l : List StudySession)
    (key : StudySession → Nat) (k : Nat) :
    bucketSum (l.map (fun s => (key s, s.words_reviewed))) k =
      ((l.filter (fun s => key s == k)).map (fun s => s.words_reviewed)).sum := by
  unfold bucketSum
  rw [List.filter_map, List.map_map]
  rfl

/-- Every join row falls in exactly one difficulty bucket. -/
theorem difficulty_filter_trichotomy :
    ∀ l : List (Word × UserWordProgress),
      (l.filter (fun wp => decide (wp.1.difficulty = DifficultyEnum.easy))).length +
        (l.filter (fun wp => decide (wp.1.difficulty = DifficultyEnum.medium))).length +
        (l.filter (fun wp => decide (wp.1.difficulty = DifficultyEnum.hard))).length =
      l.length
  | [] => rfl
  | a :: l => by
    have ih := difficulty_filter_trichotomy l
    cases ha : a.1.difficulty <;>
      (simp [List.filter_cons, ha]; omega)

/-! ## Calendar lemmas -/

theorem daysInMonth_ge (y m : Nat) : 28 ≤ daysInMonth y m := by
  unfold daysInMonth
  split_ifs <;> norm_num

theorem monthLen_ge (k : Nat) : 28 ≤ monthLen k := daysInMonth_ge _ _

theorem monthStart_succ (k : Nat) :
    monthStart (k + 1) = monthStart k + monthLen k := rfl

theorem monthStart_mono : ∀ {j k : Nat}, j ≤ k → monthStart j ≤ monthStart k := by
  intro j k h
  induction k with
  | zero =>
    have : j = 0 := by omega
    subst this; exact le_refl _
  | succ n ih =>
    rcases Nat.lt_or_ge j (n + 1) with h1 | h2
    · have hstep : monthStart n ≤ monthStart (n + 1) := by
        have := monthLen_ge n
        rw [monthStart_succ]; omega
      exact le_trans (ih (by omega)) hstep
    · have : j = n + 1 := by omega
      subst this; exact le_refl _

theorem monthStart_ge : ∀ k : Nat, 28 * k ≤ monthStart k
  | 0 => by simp [monthStart]
  | k + 1 => by
    have h1 := monthStart_ge k
    have h2 := monthLen_ge k
    rw [monthStart_succ]; omega

theorem monthIdxGo_spec (z : Nat) :
    ∀ (fuel k : Nat), monthStart k ≤ z → z < monthStart (k + fuel + 1) →
      monthStart (monthIdxGo z fuel k) ≤ z ∧
        z < monthStart (monthIdxGo z fuel k + 1)
  | 0, k, h1, h2 => by
    simp only [monthIdxGo]
    exact ⟨h1, by simpa using h2⟩
  | fuel + 1, k, h1, h2 => by
    simp only [monthIdxGo]
    by_cases h : monthStart (k + 1) ≤ z
    · rw [if_pos h]
      refine monthIdxGo_spec z fuel (k + 1) h ?_
      have e : k + 1 + fuel + 1 = k + (fuel + 1) + 1 := by omega
      rw [e]; exact h2
    · rw [if_neg h]
      exact ⟨h1, by omega⟩

theorem monthIdx_spec (z : Nat) :
    monthStart (monthIdx z) ≤ z ∧ z < monthStart (monthIdx z + 1) := by
  refine monthIdxGo_spec z (z + 1) 0 (by simp [monthStart]) ?_
  have h28 := monthStart_ge (z + 2)
  have e : 0 + (z + 1) + 1 = z + 2 := by omega
  rw [e]; omega

theorem monthIdx_unique {z k : Nat} (h1 : monthStart k ≤ z)
    (h2 : z < monthStart (k + 1)) : monthIdx z = k := by
  obtain ⟨g1, g2⟩ := monthIdx_spec z
  rcases Nat.lt_trichotomy (monthIdx z) k with h | h | h
  · have := monthStart_mono (show monthIdx z + 1 ≤ k from h)
    omega
  · exact h
  · have := monthStart_mono (show k + 1 ≤ monthIdx z from h)
    omega

theorem monthIdx_mono {z1 z2 : Nat} (h : z1 ≤ z2) :
    monthIdx z1 ≤ monthIdx z2 := by
  obtain ⟨g1, g2⟩ := monthIdx_spec z1
  obtain ⟨f1, f2⟩ := monthIdx_spec z2
  by_contra hc
  push_neg at hc
  have := monthStart_mono (show monthIdx z2 + 1 ≤ monthIdx z1 from hc)
  omega

/-- Lower bound for the length of the month with cyclic index `c`
(0 = January): only February varies with the year. -/
def monthLenLB : Nat → Nat
  | 0 => 31
  | 1 => 28
  | 2 => 31
  | 3 => 30
  | 4 => 31
  | 5 => 30
  | 6 => 31
  | 7 => 31
  | 8 => 30
  | 9 => 31
  | 10 => 30
  | _ => 31

theorem monthLenLB_le_daysInMonth (y c : Nat) (hc : c < 12) :
    monthLenLB c ≤ daysInMonth y (c + 1) := by
  interval_cases c <;> (norm_num [monthLenLB, daysInMonth]; try (split <;> norm_num))

theorem monthLenLB_le (k : Nat) : monthLenLB (k % 12) ≤ monthLen k := by
  unfold monthLen
  exact monthLenLB_le_daysInMonth _ _ (Nat.mod_lt _ (by norm_num))

theorem sixLB : ∀ c : Fin 12,
    181 ≤ monthLenLB (c.val % 12) + monthLenLB ((c.val + 1) % 12) +
      monthLenLB ((c.val + 2) % 12) + monthLenLB ((c.val + 3) % 12) +
      monthLenLB ((c.val + 4) % 12) + monthLenLB ((c.val + 5) % 12) := by
  decide

/-- Any six consecutive calendar months together last at least 181 days. -/
theorem six_monthLen (k : Nat) :
    181 ≤ monthLen k + monthLen (k + 1) + monthLen (k + 2) + monthLen (k + 3) +
      monthLen (k + 4) + monthLen (k + 5) := by
  have h0 := monthLenLB_le k
  have h1 := monthLenLB_le (k + 1)
  have h2 := monthLenLB_le (k + 2)
  have h3 := monthLenLB_le (k + 3)
  have h4 := monthLenLB_le (k + 4)
  have h5 := monthLenLB_le (k + 5)
  have hs := sixLB ⟨k % 12, Nat.mod_lt _ (by norm_num)⟩
  simp only [] at hs
  have e0 : k % 12 % 12 = k % 12 := by omega
  have e1 : (k + 1) % 12 = (k % 12 + 1) % 12 := by omega
  have e2 : (k + 2) % 12 = (k % 12 + 2) % 12 := by omega
  have e3 : (k + 3) % 12 = (k % 12 + 3) % 12 := by omega
  have e4 : (k + 4) % 12 = (k % 12 + 4) % 12 := by omega
  have e5 : (k + 5) % 12 = (k % 12 + 5) % 12 := by omega
  rw [e1] at h1
  rw [e2] at h2
  rw [e3] at h3
  rw [e4] at h4
  rw [e5] at h5
  rw [e0] at hs
  omega

theorem map_replaceFirst_found (p : α → Bool) (f : α → α) (g : α → β) :
    ∀ (l : List α) (x : α), l.find? p = some x → g (f x) = g x →
      (replaceFirst p f l).map g = l.map g
  | [], x, hx, _ => by simp at hx
  | a :: l, x, hx, hg => by
    by_cases h : p a = true
    · rw [List.find?_cons_of_pos _ h] at hx
      obtain rfl : a = x := by injection hx
      simp [replaceFirst, h, hg]
    · rw [List.find?_cons_of_neg _ (by simpa using h)] at hx
      simp [replaceFirst, h, map_replaceFirst_found p f g l x hx hg]

/-! ## Counting helpers -/

theorem length_filter_eq_sum_ind (p : β → Bool) :
    ∀ l : List β,
      (l.filter p).length = (l.map (fun b => if p b then 1 else 0)).sum
  | [] => rfl
  | b :: l => by
    by_cases h : p b = true <;>
      (simp [List.filter_cons, h, length_filter_eq_sum_ind p l]; try omega)

theorem sum_map_const_zero : ∀ l : List β, (l.map (fun _ => (0 : Nat))).sum = 0
  | [] => rfl
  | _ :: l => by simp [sum_map_const_zero l]

theorem sum_map_add_nat (f g : α → Nat) :
    ∀ l : List α,
      (l.map (fun a => f a + g a)).sum = (l.map f).sum + (l.map g).sum
  | [] => rfl
  | a :: l => by
    simp only [List.map_cons, List.sum_cons, sum_map_add_nat f g l]
    omega

theorem sum_map_sum_comm (l1 : List α) (l2 : List β) (f : α → β → Nat) :
    (l1.map (fun a => (l2.map (f a)).sum)).sum =
      (l2.map (fun b => (l1.map (fun a => f a b)).sum)).sum := by
  induction l1 with
  | nil => simp [sum_map_const_zero]
  | cons a l ih =>
    simp only [List.map_cons, List.sum_cons, ih]
    rw [← sum_map_add_nat]

theorem filterMap_length_of_all_isSome (f : α → Option β) :
    ∀ l : List α, (∀ a ∈ l, (f a).isSome = true) →
      (l.filterMap f).length = l.length
  | [], _ => rfl
  | a :: l, h => by
    have ha : (f a).isSome = true := h a (by simp)
    obtain ⟨b, hb⟩ := Option.isSome_iff_exists.mp ha
    rw [List.filterMap_cons, hb]
    simp only [List.length_cons]
    rw [filterMap_length_of_all_isSome f l
      (fun x hx => h x (List.mem_cons_of_mem _ hx))]

theorem beq_comm_str (a b : String) : (a == b) = (b == a) := by
  by_cases h : a = b
  · subst h; rfl
  · rw [beq_eq_false_iff_ne.mpr h, beq_eq_false_iff_ne.mpr (Ne.symm h)]

/-- Two days at most 180 days apart lie at most 6 month numbers apart:
a 180-day trailing window touches at most 7 calendar months. -/
theorem monthIdx_window {z1 z2 : Nat} (h12 : z1 ≤ z2) (h : z2 ≤ z1 + 180) :
    monthIdx z2 ≤ monthIdx z1 + 6 := by
  by_contra hc
  push_neg at hc
  obtain ⟨g1, g2⟩ := monthIdx_spec z1
  obtain ⟨f1, f2⟩ := monthIdx_spec z2
  have h7 : monthIdx z1 + 7 ≤ monthIdx z2 := hc
  have hms : monthStart (monthIdx z1 + 7) ≤ monthStart (monthIdx z2) :=
    monthStart_mono h7
  have e7 : monthStart (monthIdx z1 + 7) =
      monthStart (monthIdx z1 + 6) + monthLen (monthIdx z1 + 6) := by
    rw [show monthIdx z1 + 7 = (monthIdx z1 + 6) + 1 by omega, monthStart_succ]
  have e6 : monthStart (monthIdx z1 + 6) =
      monthStart (monthIdx z1 + 5) + monthLen (monthIdx z1 + 5) := by
    rw [show monthIdx z1 + 6 = (monthIdx z1 + 5) + 1 by omega, monthStart_succ]
  have e5 : monthStart (monthIdx z1 + 5) =
      monthStart (monthIdx z1 + 4) + monthLen (monthIdx z1 + 4) := by
    rw [show monthIdx z1 + 5 = (monthIdx z1 + 4) + 1 by omega, monthStart_succ]
  have e4 : monthStart (monthIdx z1 + 4) =
      monthStart (monthIdx z1 + 3) + monthLen (monthIdx z1 + 3) := by
    rw [show monthIdx z1 + 4 = (monthIdx z1 + 3) + 1 by omega, monthStart_succ]
  have e3 : monthStart (monthIdx z1 + 3) =
      monthStart (monthIdx z1 + 2) + monthLen (monthIdx z1 + 2) := by
    rw [show monthIdx z1 + 3 = (monthIdx z1 + 2) + 1 by omega, monthStart_succ]
  have e2 : monthStart (monthIdx z1 + 2) =
      monthStart (monthIdx z1 + 1) + monthLen (monthIdx z1 + 1) := by
    rw [show monthIdx z1 + 2 = (monthIdx z1 + 1) + 1 by omega, monthStart_succ]
  have hsix := six_monthLen (monthIdx z1 + 1)
  have r2 : monthIdx z1 + 1 + 1 = monthIdx z1 + 2 := by omega
  have r3 : monthIdx z1 + 1 + 2 = monthIdx z1 + 3 := by omega
  have r4 : monthIdx z1 + 1 + 3 = monthIdx z1 + 4 := by omega
  have r5 : monthIdx z1 + 1 + 4 = monthIdx z1 + 5 := by omega
  have r6 : monthIdx z1 + 1 + 5 = monthIdx z1 + 6 := by omega
  rw [r2, r3, r4, r5, r6] at hsix
  omega

/-! ## Claim theorems -/

/-- Claim C1: the word-progress update resolves or creates the
(user, word) row.  If the row exists, its status is set to the requested
value and `correct_streak` is incremented by 1 when that value is
`mastered` and reset to 0 otherwise — with no special case for re-marking
an already-mastered word.  If no row exists, one is created with the
requested status and `correct_streak = 1` when it is `mastered`, else 0. -/
theorem claim_C1_update_word_progress (db : DB) (word_id user_id : String)
    (status : StatusEnum) (now : Nat) :
    (∀ p, db.progress.find? (progressKey word_id user_id) = some p →
      (update_word_progress db word_id user_id status now).2 =
          { p with
            status := status
            correct_streak :=
              if status = StatusEnum.mastered then p.correct_streak + 1
              else 0 } ∧
        (update_word_progress db word_id user_id status now).1.progress.find?
            (progressKey word_id user_id) =
          some (update_word_progress db word_id user_id status now).2) ∧
    (db.progress.find? (progressKey word_id user_id) = none →
      (update_word_progress db word_id user_id status now).2 =
          { user_id := user_id, word_id := word_id, status := status,
            last_reviewed_at := now,
            correct_streak :=
              if status = StatusEnum.mastered then 1 else 0 } ∧
        (update_word_progress db word_id user_id status now).1.progress =
          db.progress ++
            [(update_word_progress db word_id user_id status now).2]) := by
  constructor
  · intro p hp
    have hkey : progressKey word_id user_id p = true := List.find?_some hp
    have hkey' : progressKey word_id user_id
        { p with
          status := status
          correct_streak :=
            if status = StatusEnum.mastered then p.correct_streak + 1
            else 0 } = true := by
      simpa [progressKey] using hkey
    refine ⟨by simp [update_word_progress, hp], ?_⟩
    simp only [update_word_progress, hp]
    exact find?_replaceFirst _ _ _ _ hp hkey'
  · intro hp
    exact ⟨by simp [update_word_progress, hp],
           by simp [update_word_progress, hp]⟩

/-- Witness for C1: re-marking the mastered row `rowC1` as `learning`
resets its streak to 0. -/
theorem claim_C1_witness :
    dbC1.progress.find? (progressKey "w1" "u1") = some rowC1 ∧
    (update_word_progress dbC1 "w1" "u1" StatusEnum.learning 500).2 =
      { user_id := "u1", word_id := "w1", status := StatusEnum.learning,
        last_reviewed_at := 100, correct_streak := 0 } := by
  have h := (claim_C1_update_word_progress dbC1 "w1" "u1"
    StatusEnum.learning 500).1 rowC1 (by decide)
  refine ⟨by decide, ?_⟩
  rw [h.1]
  decide

/-- Claim C9: when the (user, word) progress row already exists, the update
leaves `last_reviewed_at` unchanged — on the returned row and across the
whole table (keys and review timestamps are preserved row-for-row). -/
theorem claim_C9_last_reviewed_frame (db : DB) (word_id user_id : String)
    (status : StatusEnum) (now : Nat) (p : UserWordProgress)
    (hp : db.progress.find? (progressKey word_id user_id) = some p) :
    (update_word_progress db word_id user_id status now).2.last_reviewed_at =
        p.last_reviewed_at ∧
      (update_word_progress db word_id user_id status now).1.progress.map
          (fun q => (q.user_id, q.word_id, q.last_reviewed_at)) =
        db.progress.map (fun q => (q.user_id, q.word_id, q.last_reviewed_at)) := by
  constructor
  · simp [update_word_progress, hp]
  · simp only [update_word_progress, hp]
    exact map_replaceFirst_found _ _ _ _ _ hp rfl

/-- Witness for C9: updating the existing row `rowC9` keeps its
`last_reviewed_at = 77`. -/
theorem claim_C9_witness :
    (update_word_progress dbC9 "w9" "u1" StatusEnum.mastered 999).2.last_reviewed_at =
        77 ∧
      (update_word_progress dbC9 "w9" "u1" StatusEnum.mastered 999).1.progress.map
          (fun q => (q.user_id, q.word_id, q.last_reviewed_at)) =
        dbC9.progress.map (fun q => (q.user_id, q.word_id, q.last_reviewed_at)) := by
  have h := claim_C9_last_reviewed_frame dbC9 "w9" "u1" StatusEnum.mastered 999
    rowC9 (by decide)
  exact ⟨h.1, h.2⟩

/-- Claim C2: for a deck that exists and is owned by the requesting user,
the deck detail endpoint returns
`mastery_percentage = (mastered/total)*100` when the deck has words and 0
otherwise, and `words_learning = total - mastered`, where `mastered`
counts the user's mastered progress rows joined to the deck's words and
`total` counts all words of the deck. -/
theorem claim_C2_read_deck (db : DB) (deck_id : String) (u : User) (d : Deck)
    (hd : get_deck db deck_id = some d) (hown : d.user_id = u.id) :
    ∃ detail, read_deck db deck_id u = Except.ok detail ∧
      detail.mastery_percentage =
        (if 0 < count_total_words_in_deck db deck_id then
          ((count_words_by_status db deck_id StatusEnum.mastered u.id : Rat) /
            (count_total_words_in_deck db deck_id : Rat)) * 100
         else 0) ∧
      detail.words_learning =
        (count_total_words_in_deck db deck_id : Int) -
          (count_words_by_status db deck_id StatusEnum.mastered u.id : Int) := by
  simp only [read_deck, hd]
  rw [if_neg (show ¬d.user_id ≠ u.id by simp [hown])]
  exact ⟨_, rfl, rfl, rfl⟩

/-- Witness for C2, the spec's example scenario: deck `d1` has 4 words and
1 of them mastered, giving 25% mastery and 3 words learning. -/
theorem claim_C2_witness :
    ∃ detail, read_deck dbC2 "d1" uModel = Except.ok detail ∧
      detail.mastery_percentage = 25 ∧ detail.words_learning = 3 := by
  obtain ⟨detail, h1, h2, h3⟩ :=
    claim_C2_read_deck dbC2 "d1" uModel deckD1 (by decide) (by decide)
  have e1 : count_total_words_in_deck dbC2 "d1" = 4 := by decide
  have e2 : count_words_by_status dbC2 "d1" StatusEnum.mastered uModel.id = 1 := by
    decide
  rw [e1, e2] at h2 h3
  refine ⟨detail, h1, ?_, ?_⟩
  · rw [h2, if_pos (by norm_num)]
    norm_num
  · rw [h3]
    decide

/-- Claim C7: partial updates apply exactly the fields present in the
payload and leave absent fields untouched, for deck, word, user-profile
and user-settings updates alike. -/
theorem claim_C7_partial_update (db : DB) (deck_id word_id user_id : String)
    (du : DeckUpdate) (wu : WordUpdate) (pu : UserProfileUpdate)
    (su : UserSettingsUpdate) :
    (∀ d, get_deck db deck_id = some d →
      ∃ r, update_deck db deck_id du = some r ∧
        (du.title = none → r.2.title = d.title) ∧
        (∀ v, du.title = some v → r.2.title = v) ∧
        (du.description = none → r.2.description = d.description) ∧
        (∀ v, du.description = some v → r.2.description = v) ∧
        (du.category = none → r.2.category = d.category) ∧
        (∀ v, du.category = some v → r.2.category = v)) ∧
    (∀ w, get_word db word_id = some w →
      ∃ r, update_word db word_id wu = some r ∧
        (wu.word = none → r.2.word = w.word) ∧
        (wu.definition = none → r.2.definition = w.definition) ∧
        (wu.«example» = none → r.2.«example» = w.«example») ∧
        (wu.difficulty = none → r.2.difficulty = w.difficulty)) ∧
    (∀ us, get_user db user_id = some us →
      ∃ r, update_user_profile db user_id pu = some r ∧
        (pu.full_name = none → r.2.full_name = us.full_name) ∧
        (pu.bio = none → r.2.bio = us.bio) ∧
        (pu.avatar_url = none → r.2.avatar_url = us.avatar_url)) ∧
    (∀ us, get_user db user_id = some us →
      ∃ r, update_user_settings db user_id su = some r ∧
        (su.daily_goal = none → r.2.daily_goal = us.daily_goal) ∧
        (su.notifications_enabled = none →
          r.2.notifications_enabled = us.notifications_enabled) ∧
        (su.sound_effects_enabled = none →
          r.2.sound_effects_enabled = us.sound_effects_enabled) ∧
        (su.dark_mode_enabled = none →
          r.2.dark_mode_enabled = us.dark_mode_enabled)) := by
  refine ⟨?_, ?_, ?_, ?_⟩
  · intro d hd
    have hr : update_deck db deck_id du =
        some ({ db with
                decks := replaceFirst (fun x => x.id == deck_id)
                  (fun _ => applyDeckUpdate du d) db.decks },
              applyDeckUpdate du d) := by
      simp only [update_deck, hd]
    refine ⟨_, hr, ?_, ?_, ?_, ?_, ?_, ?_⟩
    · intro h; simp [applyDeckUpdate, h]
    · intro v h; simp [applyDeckUpdate, h]
    · intro h; simp [applyDeckUpdate, h]
    · intro v h; simp [applyDeckUpdate, h]
    · intro h; simp [applyDeckUpdate, h]
    · intro v h; simp [applyDeckUpdate, h]
  · intro w hw
    have hr : update_word db word_id wu =
        some ({ db with
                words := replaceFirst (fun x => x.id == word_id)
                  (fun _ => applyWordUpdate wu w) db.words },
              applyWordUpdate wu w) := by
      simp only [update_word, hw]
    refine ⟨_, hr, ?_, ?_, ?_, ?_⟩ <;> (intro h; simp [applyWordUpdate, h])
  · intro us hus
    have hr : update_user_profile db user_id pu =
        some ({ db with
                users := replaceFirst (fun x => x.id == user_id)
                  (fun _ => applyProfileUpdate pu us) db.users },
              applyProfileUpdate pu us) := by
      simp only [update_user_profile, hus]
    refine ⟨_, hr, ?_, ?_, ?_⟩ <;> (intro h; simp [applyProfileUpdate, h])
  · intro us hus
    have hr : update_user_settings db user_id su =
        some ({ db with
                users := replaceFirst (fun x => x.id == user_id)
                  (fun _ => applySettingsUpdate su us) db.users },
              applySettingsUpdate su us) := by
      simp only [update_user_settings, hus]
    refine ⟨_, hr, ?_, ?_, ?_, ?_⟩ <;> (intro h; simp [applySettingsUpdate, h])

/-- Witness for C7: updating only the title of deck `d1` keeps its
description and category. -/
theorem claim_C7_witness :
    ∃ r, update_deck dbC7 "d1"
        { title := some "New", description := none, category := none } = some r ∧
      r.2.title = "New" ∧ r.2.description = some "starter deck" ∧
      r.2.category = "general" := by
  obtain ⟨r, hr, _, ht, hdesc, _, hcat, _⟩ :=
    (claim_C7_partial_update dbC7 "d1" "w1" "u1"
      { title := some "New", description := none, category := none }
      { word := none, definition := none, «example» := none, difficulty := none }
      { full_name := none, bio := none, avatar_url := none }
      { daily_goal := none, notifications_enabled := none,
        sound_effects_enabled := none, dark_mode_enabled := none }).1
      deckD1 (by decide)
  refine ⟨r, hr, ht "New" rfl, ?_, ?_⟩
  · rw [hdesc rfl]
    rfl
  · rw [hcat rfl]
    rfl

/-- Claim C8 (amended): an unresolved deck or word id in a path parameter
fails with NotFound (404); but the `deck_id` inside a study-session
payload that does not resolve fails with Forbidden (403), not NotFound. -/
theorem claim_C8_error_kinds (db : DB) (u : User) (deck_id word_id : String)
    (du : DeckUpdate) (wu : WordUpdate) (wc : WordCreate) (wid sid : String)
    (pl : StudySessionCreate) (st : StatusEnum) (now : Nat) :
    (get_deck db deck_id = none →
      read_deck db deck_id u = Except.error ApiError.notFound ∧
      update_deck_route db u deck_id du = Except.error ApiError.notFound ∧
      delete_deck_route db u deck_id = Except.error ApiError.notFound ∧
      create_word_route db u deck_id wc wid = Except.error ApiError.notFound ∧
      update_word_route db u deck_id word_id wu = Except.error ApiError.notFound ∧
      delete_word_route db u deck_id word_id = Except.error ApiError.notFound) ∧
    (∀ d, get_deck db deck_id = some d → d.user_id = u.id →
      get_word db word_id = none →
      update_word_route db u deck_id word_id wu = Except.error ApiError.notFound ∧
      delete_word_route db u deck_id word_id = Except.error ApiError.notFound) ∧
    (get_word db word_id = none →
      update_word_progress_route db u word_id st now =
        Except.error ApiError.notFound) ∧
    (get_deck db pl.deck_id = none →
      create_study_session_route db u pl sid now =
        Except.error ApiError.forbidden) := by
  refine ⟨?_, ?_, ?_, ?_⟩
  · intro h
    exact ⟨by simp [read_deck, h], by simp [update_deck_route, h],
      by simp [delete_deck_route, h], by simp [create_word_route, h],
      by simp [update_word_route, h], by simp [delete_word_route, h]⟩
  · intro d hd hown hw
    constructor
    · simp [update_word_route, hd, hown, update_word, hw]
    · simp [delete_word_route, hd, hown, delete_word, hw]
  · intro hw
    simp [update_word_progress_route, hw]
  · intro h
    simp [create_study_session_route, h]

/-- Witness for C8 (amended): a missing deck id 404s on the deck detail
route, a missing word id 404s on the word update and progress routes. -/
theorem claim_C8_witness :
    read_deck dbC8 "nope" uModel = Except.error ApiError.notFound ∧
    update_word_route dbC8 uModel "d1" "missing"
        { word := none, definition := none, «example» := none,
          difficulty := none } = Except.error ApiError.notFound ∧
    update_word_progress_route dbC8 uModel "missing" StatusEnum.mastered 0 =
      Except.error ApiError.notFound := by
  have h1 := claim_C8_error_kinds dbC8 uModel "nope" "missing"
    { title := none, description := none, category := none }
    { word := none, definition := none, «example» := none, difficulty := none }
    { word := "w", definition := "d", «example» := none,
      difficulty := DifficultyEnum.easy }
    "nw" "ns" plC8 StatusEnum.mastered 0
  have h2 := claim_C8_error_kinds dbC8 uModel "d1" "missing"
    { title := none, description := none, category := none }
    { word := none, definition := none, «example» := none, difficulty := none }
    { word := "w", definition := "d", «example» := none,
      difficulty := DifficultyEnum.easy }
    "nw" "ns" plC8 StatusEnum.mastered 0
  exact ⟨(h1.1 (by decide)).1,
    (h2.2.1 deckD1 (by decide) (by decide) (by decide)).1,
    h1.2.2.1 (by decide)⟩

/-- Counterexample for C8 as stated: the study-session payload references
deck id "nope", which does not resolve, yet the route fails with
Forbidden, not NotFound. -/
theorem claim_C8_counterexample :
    get_deck dbC8 "nope" = none ∧
    create_study_session_route dbC8 uModel plC8 "s9" 100 =
      Except.error ApiError.forbidden ∧
    create_study_session_route dbC8 uModel plC8 "s9" 100 ≠
      Except.error ApiError.notFound := by
  have hroute : create_study_session_route dbC8 uModel plC8 "s9" 100 =
      Except.error ApiError.forbidden := rfl
  refine ⟨by decide, hroute, ?_⟩
  rw [hroute]
  simp

/-- Claim C3 (amended): `weekly_words_progress` sums `words_reviewed` over
the user's sessions completed since `now` minus the weekday offset in
whole days — keeping the current time of day, not truncated to midnight —
and `weekly_words_goal = daily_goal * 7`. -/
theorem claim_C3_weekly_goal (db : DB) (u : User) (now : Nat) :
    (get_user_stats db u now).weekly_words_progress =
      ((sessionsSince db u (now - weekdayOf now * minutesPerDay)).map
        (fun s => s.words_reviewed)).sum ∧
    (get_user_stats db u now).weekly_words_goal = u.daily_goal * 7 :=
  ⟨rfl, rfl⟩

/-- Counterexample for C3 as stated: at noon of Monday 1970-01-05
(minute 6480, weekday 0) a session logged the same Monday at 00:30 with 25
words is excluded by the code (sum 0), while the claimed
midnight-truncated window would include it (sum 25). -/
theorem claim_C3_counterexample :
    weekdayOf 6480 = 0 ∧
    (get_user_stats dbC3 uModel 6480).weekly_words_progress = 0 ∧
    weekly_words_progress_claimed dbC3 uModel 6480 = 25 := by
  refine ⟨by decide, by decide, by decide⟩

/-- Claim C4 (amended): `monthly_progress` groups the user's sessions of
the trailing 180 days by calendar year-month, sums `words_reviewed` per
bucket, orders buckets chronologically, synthesizes no empty months — and,
as long as no stored session postdates the query time, has between 0 and
**7** entries (a 180-day window can touch seven calendar months). -/
theorem claim_C4_monthly_progress (db : DB) (u : User) (now : Nat)
    (hle : ∀ s ∈ db.sessions, s.completed_at ≤ now) :
    (get_user_stats db u now).monthly_progress.length ≤ 7 ∧
    (get_user_stats db u now).monthly_progress.Pairwise (fun a b => a.1 < b.1) ∧
    (∀ q ∈ (get_user_stats db u now).monthly_progress,
      (∃ s ∈ sessionsSince db u (now - 180 * minutesPerDay),
        monthKey s.completed_at = q.1) ∧
      q.2 = (((sessionsSince db u (now - 180 * minutesPerDay)).filter
          (fun s => monthKey s.completed_at == q.1)).map
          (fun s => s.words_reviewed)).sum) ∧
    (∀ s ∈ sessionsSince db u (now - 180 * minutesPerDay),
      ∃ q ∈ (get_user_stats db u now).monthly_progress,
        q.1 = monthKey s.completed_at) := by
  have hmp : (get_user_stats db u now).monthly_progress =
      groupSumSorted ((sessionsSince db u (now - 180 * minutesPerDay)).map
        (fun s => (monthKey s.completed_at, s.words_reviewed))) := rfl
  refine ⟨?_, ?_, ?_, ?_⟩
  · -- at most 7 buckets
    rw [hmp]
    rcases hxe : (sessionsSince db u (now - 180 * minutesPerDay)).map
        (fun s => (monthKey s.completed_at, s.words_reviewed)) with _ | ⟨p0, rest⟩
    · rw [hxe, groupSumSorted_nil]
      simp
    · have hne : (sessionsSince db u (now - 180 * minutesPerDay)).map
          (fun s => (monthKey s.completed_at, s.words_reviewed)) ≠ [] := by
        rw [hxe]; simp
      have hkb : ∀ q ∈ (sessionsSince db u (now - 180 * minutesPerDay)).map
          (fun s => (monthKey s.completed_at, s.words_reviewed)),
          monthIdx (dateOf (now - 180 * minutesPerDay)) ≤ q.1 ∧
            q.1 ≤ monthIdx (dateOf now) := by
        intro q hq
        obtain ⟨s, hs, rfl⟩ := List.mem_map.mp hq
        have hmem := List.mem_filter.mp hs
        have hcond : s.user_id == u.id ∧ now - 180 * minutesPerDay ≤ s.completed_at := by
          simpa [Bool.and_eq_true, decide_eq_true_eq] using hmem.2
        have h2 : s.completed_at ≤ now := hle s hmem.1
        exact ⟨monthIdx_mono (Nat.div_le_div_right hcond.2),
               monthIdx_mono (Nat.div_le_div_right h2)⟩
      have hlo : monthIdx (dateOf (now - 180 * minutesPerDay)) ≤
          keyLo ((sessionsSince db u (now - 180 * minutesPerDay)).map
            (fun s => (monthKey s.completed_at, s.words_reviewed))) :=
        le_keyLo hne (fun q hq => (hkb q hq).1)
      have hhi : keyHi ((sessionsSince db u (now - 180 * minutesPerDay)).map
            (fun s => (monthKey s.completed_at, s.words_reviewed))) ≤
          monthIdx (dateOf now) :=
        keyHi_le hne (fun q hq => (hkb q hq).2)
      have hwin7 : monthIdx (dateOf now) ≤
          monthIdx (dateOf (now - 180 * minutesPerDay)) + 6 := by
        refine monthIdx_window (Nat.div_le_div_right (by omega)) ?_
        simp only [dateOf, minutesPerDay]
        omega
      have hlen := groupSumSorted_length_le
        ((sessionsSince db u (now - 180 * minutesPerDay)).map
          (fun s => (monthKey s.completed_at, s.words_reviewed)))
      omega
  · -- chronological order on the month keys
    rw [hmp]
    exact groupSumSorted_sorted _
  · -- each bucket is inhabited and sums its month's words_reviewed
    intro q hq
    rw [hmp] at hq
    obtain ⟨hk, hv⟩ := mem_groupSumSorted.mp hq
    constructor
    · obtain ⟨pr, hpr, hpk⟩ := List.any_eq_true.mp hk
      obtain ⟨s, hs, rfl⟩ := List.mem_map.mp hpr
      exact ⟨s, hs, by simpa using hpk⟩
    · rw [hv, bucketSum_map_sessions]
  · -- every in-window session's month has a bucket
    intro s hs
    refine ⟨(monthKey s.completed_at,
      bucketSum ((sessionsSince db u (now - 180 * minutesPerDay)).map
        (fun t => (monthKey t.completed_at, t.words_reviewed)))
        (monthKey s.completed_at)), ?_, rfl⟩
    rw [hmp]
    refine mem_groupSumSorted.mpr ⟨?_, rfl⟩
    refine List.any_eq_true.mpr
      ⟨(monthKey s.completed_at, s.words_reviewed), ?_, by simp⟩
    exact List.mem_map.mpr ⟨s, hs, rfl⟩

/-- Witness for C4 (amended) at a concrete database. -/
theorem claim_C4_witness :
    (get_user_stats dbC4 uModel 267120).monthly_progress.length ≤ 7 :=
  (claim_C4_monthly_progress dbC4 uModel 267120 (by decide)).1

/-- Counterexample for C4 as stated: at 1970-07-05 12:00 the seven
sessions of `dbC4`, one per month January through July and all inside the
trailing 180 days, produce seven buckets — more than the claimed maximum
of six. -/
theorem claim_C4_counterexample :
    (∀ s ∈ dbC4.sessions,
      267120 - 180 * minutesPerDay ≤ s.completed_at ∧
        s.completed_at ≤ 267120) ∧
    (get_user_stats dbC4 uModel 267120).monthly_progress.length = 7 := by
  refine ⟨by decide, by decide⟩

/-- Claim C5: `weekly_activity` always has exactly 7 entries, one per
calendar day from 6 days ago through today in chronological order; a day
with no sessions appears with 0 (the empty sum) and a day with sessions in
the trailing window appears with the sum of their `words_reviewed`. -/
theorem claim_C5_weekly_activity (db : DB) (u : User) (now : Nat) :
    (get_user_stats db u now).weekly_activity.length = 7 ∧
    ∀ i, i < 7 → (get_user_stats db u now).weekly_activity[i]? =
      some (dateOf now - 6 + i,
        (((sessionsSince db u (now - 6 * minutesPerDay)).filter
          (fun s => dateOf s.completed_at == dateOf now - 6 + i)).map
          (fun s => s.words_reviewed)).sum) := by
  have hwa : (get_user_stats db u now).weekly_activity =
      (List.range 7).map (fun i =>
        (dateOf (now - 6 * minutesPerDay) + i,
          ((groupSumSorted ((sessionsSince db u (now - 6 * minutesPerDay)).map
              (fun s => (dateOf s.completed_at, s.words_reviewed)))).lookup
            (dateOf (now - 6 * minutesPerDay) + i)).getD 0)) := rfl
  have hdate : dateOf (now - 6 * minutesPerDay) = dateOf now - 6 := by
    simp only [dateOf, minutesPerDay]
    omega
  constructor
  · rw [hwa]
    simp
  · intro i hi
    rw [hwa, List.getElem?_map, List.getElem?_range hi]
    simp only [Option.map_some']
    rw [getD_lookup_groupSumSorted, bucketSum_map_sessions, hdate]

/-- Claim C6: `accuracy_rate` averages `score_percentage` over quiz
sessions only, and is exactly 0 for a user with no quiz session. -/
theorem claim_C6_accuracy (db : DB) (u : User) (now : Nat) :
    (quizSessions db u = [] → (get_user_stats db u now).accuracy_rate = 0) ∧
    ((∀ s ∈ quizSessions db u, s.score_percentage.isSome = true) →
      quizSessions db u ≠ [] →
      (get_user_stats db u now).accuracy_rate =
        (quizScoreSum db u : Rat) / ((quizSessions db u).length : Rat)) := by
  have hacc : (get_user_stats db u now).accuracy_rate =
      (if ((quizSessions db u).filterMap (fun s => s.score_percentage)).isEmpty then
        (0 : Rat)
       else
        (quizScoreSum db u : Rat) /
          ((((quizSessions db u).filterMap (fun s => s.score_percentage)).length :
            Nat) : Rat)) := rfl
  constructor
  · intro h
    rw [hacc, h]
    rfl
  · intro hall hne
    have hlen := filterMap_length_of_all_isSome
      (fun s => s.score_percentage) (quizSessions db u) hall
    have hnempty :
        ((quizSessions db u).filterMap (fun s => s.score_percentage)).isEmpty =
          false := by
      cases hq : quizSessions db u with
      | nil => exact absurd hq hne
      | cons a l =>
        have ha : a.score_percentage.isSome = true := by
          refine hall a ?_
          rw [hq]
          simp
        obtain ⟨b, hb⟩ := Option.isSome_iff_exists.mp ha
        simp [List.filterMap_cons, hb]
    rw [hacc, hnempty]
    simp only [Bool.false_eq_true, if_false]
    rw [hlen]

/-- Witness for C6: no quiz session gives accuracy 0; quiz scores 80 and
90 average to 85. -/
theorem claim_C6_witness :
    (get_user_stats dbC6a uModel 5000).accuracy_rate = 0 ∧
    (get_user_stats dbC6b uModel 5000).accuracy_rate = 85 := by
  constructor
  · exact (claim_C6_accuracy dbC6a uModel 5000).1 (by decide)
  · have h := (claim_C6_accuracy dbC6b uModel 5000).2 (by decide) (by decide)
    have e1 : quizScoreSum dbC6b uModel = 170 := by decide
    have e2 : (quizSessions dbC6b uModel).length = 2 := by decide
    rw [h, e1, e2]
    norm_num

/-- Claim C10: the difficulty breakdown counts partition the user's
progress rows — easy + medium + hard equals the number of the user's
`UserWordProgress` rows, whenever every progress row joins exactly one
word. -/
theorem claim_C10_difficulty_breakdown (db : DB) (u : User) (now : Nat)
    (href : ∀ p ∈ db.progress,
      (db.words.filter (fun w => w.id == p.word_id)).length = 1) :
    (get_user_stats db u now).difficulty_easy +
      (get_user_stats db u now).difficulty_medium +
      (get_user_stats db u now).difficulty_hard =
    (db.progress.filter (fun p => p.user_id == u.id)).length := by
  have he : (get_user_stats db u now).difficulty_easy =
      ((db.words.flatMap (fun w =>
        (db.progress.filter (fun p => p.word_id == w.id && p.user_id == u.id)).map
          (fun p => (w, p)))).filter
        (fun wp => decide (wp.1.difficulty = DifficultyEnum.easy))).length := rfl
  have hm : (get_user_stats db u now).difficulty_medium =
      ((db.words.flatMap (fun w =>
        (db.progress.filter (fun p => p.word_id == w.id && p.user_id == u.id)).map
          (fun p => (w, p)))).filter
        (fun wp => decide (wp.1.difficulty = DifficultyEnum.medium))).length := rfl
  have hh : (get_user_stats db u now).difficulty_hard =
      ((db.words.flatMap (fun w =>
        (db.progress.filter (fun p => p.word_id == w.id && p.user_id == u.id)).map
          (fun p => (w, p)))).filter
        (fun wp => decide (wp.1.difficulty = DifficultyEnum.hard))).length := rfl
  rw [he, hm, hh, difficulty_filter_trichotomy]
  have hlen : (db.words.flatMap (fun w =>
      (db.progress.filter (fun p => p.word_id == w.id && p.user_id == u.id)).map
        (fun p => (w, p)))).length =
      (db.words.map (fun w =>
        (db.progress.filter
          (fun p => p.word_id == w.id && p.user_id == u.id)).length)).sum := by
    rw [List.flatMap_def, List.length_flatten, List.map_map]
    refine congrArg List.sum (List.map_congr_left ?_)
    intro w hw
    simp [Function.comp]
  rw [hlen]
  have hswap : (db.words.map (fun w =>
      (db.progress.filter
        (fun p => p.word_id == w.id && p.user_id == u.id)).length)).sum =
      (db.progress.map (fun p =>
        (db.words.map (fun w =>
          if p.word_id == w.id && p.user_id == u.id then 1 else 0)).sum)).sum := by
    rw [List.map_congr_left (fun w _ => length_filter_eq_sum_ind
      (fun p => p.word_id == w.id && p.user_id == u.id) db.progress)]
    exact sum_map_sum_comm db.words db.progress
      (fun w p => if p.word_id == w.id && p.user_id == u.id then 1 else 0)
  rw [hswap]
  have hinner : ∀ p ∈ db.progress,
      (db.words.map (fun w =>
        if p.word_id == w.id && p.user_id == u.id then 1 else 0)).sum =
      if p.user_id == u.id then 1 else 0 := by
    intro p hp
    by_cases hu : (p.user_id == u.id) = true
    · rw [hu]
      simp only [Bool.and_true]
      have h1 : (db.words.map (fun w => if p.word_id == w.id then 1 else 0)).sum =
          (db.words.filter (fun w => p.word_id == w.id)).length :=
        (length_filter_eq_sum_ind (fun w => p.word_id == w.id) db.words).symm
      have hfl : db.words.filter (fun w => p.word_id == w.id) =
          db.words.filter (fun w => w.id == p.word_id) :=
        List.filter_congr (fun w _ => beq_comm_str p.word_id w.id)
      rw [h1, hfl, href p hp]
      simp
    · have hu' : (p.user_id == u.id) = false := by simpa using hu
      rw [hu']
      simp only [Bool.and_false, Bool.false_eq_true, if_false]
      exact sum_map_const_zero db.words
  rw [List.map_congr_left hinner]
  exact (length_filter_eq_sum_ind (fun p => p.user_id == u.id) db.progress).symm

/-- Witness for C10: two words, three progress rows (two of them for user
`u1`), breakdown 1 + 0 + 1 = 2. -/
theorem claim_C10_witness :
    (get_user_stats dbC10 uModel 0).difficulty_easy +
        (get_user_stats dbC10 uModel 0).difficulty_medium +
        (get_user_stats dbC10 uModel 0).difficulty_hard =
      (dbC10.progress.filter (fun p => p.user_id == uModel.id)).length ∧
    (dbC10.progress.filter (fun p => p.user_id == uModel.id)).length = 2 := by
  refine ⟨claim_C10_difficulty_breakdown dbC10 uModel 0 (by decide), by decide⟩

end Luma
